import Mathlib

/-!
Verification development for the edx-completion completion-record store.

The repository's `src/` holds `completion/fields.py` (the `BigAutoField`
custom field) and `completion/tests/test_models.py`.  The module
`completion/models.py` itself (with `validate_percent`,
`BlockCompletion.objects.submit_completion` and
`BlockCompletion.objects.submit_batch_completion`) is not under `src/`,
so those operations are modelled from the specification (spec.md §3–§7),
faithful to its words; `fields.py` is embedded directly from the source.

Completion values are rationals (`ℚ`): the float domain of the code is
modelled exactly on the finite values the spec reasons about, with the
non-finite and non-numeric inputs (`NaN`, `±inf`, `None`) as explicit
constructors of `Value`.
-/

/-- Modelled from the spec: the error taxonomy of §7 (models.py is not under
`src/`).  `validationError` for out-of-domain completion values,
`configurationError` for a disabled feature gate, `enrollmentError` for a
batch submission by a user without an active enrollment. -/
inductive Err where
  | validationError
  | configurationError
  | enrollmentError
deriving DecidableEq

/-- Modelled from the spec: a submitted completion value.  Numeric finite
values carry a rational; `nan`, `posInf`, `negInf` and `nonNumeric` stand for
the inputs the validator must reject (§4.1). -/
inductive Value where
  | num (q : ℚ)
  | nan
  | posInf
  | negInf
  | nonNumeric
deriving DecidableEq

/-- Modelled from the spec: `validate(value) -> Result<(), ValidationError>`
(§4.1): accepts any numeric value in [0.0, 1.0]; fails with
`ValidationError` when the value is not numeric, below 0.0, above 1.0,
NaN, or positive or negative infinity.  (`validate_percent` in
completion/models.py, absent from `src/`.) -/
def validate_percent (v : Value) : Except Err Unit :=
  match v with
  | .num q => if 0 ≤ q ∧ q ≤ 1 then .ok () else .error .validationError
  | _ => .error .validationError

/-- Modelled from the spec: an opaque block key from which a course key and a
block type are derivable (§3, glossary). -/
structure BlockKey where
  course : String
  blockType : String
  name : String
deriving DecidableEq

/-- Modelled from the spec: the persisted `CompletionRecord` / `BlockCompletion`
entity (§3): user reference, denormalized course key and block type, block
key, completion fraction and last-modified timestamp. -/
structure BlockCompletion where
  user : String
  course_key : String
  block_type : String
  block_key : BlockKey
  completion : ℚ
  modified : Nat
deriving DecidableEq

/-- The keyed store of completion records owned by the repository (§4.3). -/
abbrev Store := List BlockCompletion

/-- Modelled from the spec: `find(user, block_key) -> Option<CompletionRecord>`
(§4.3): lookup by the (user, block key) pair, no side effects. -/
def find : Store → String → BlockKey → Option BlockCompletion
  | [], _, _ => none
  | r :: rest, u, k =>
      if r.user = u ∧ r.block_key = k then some r else find rest u k

/-- Replace every record matching the (user, block key) pair by `r2`
(the in-place update of §4.3; with the uniqueness invariant this touches
exactly the one matching row). -/
def replaceRec : Store → String → BlockKey → BlockCompletion → Store
  | [], _, _, _ => []
  | r :: rest, u, k, r2 =>
      if r.user = u ∧ r.block_key = k then r2 :: replaceRec rest u k r2
      else r :: replaceRec rest u k r2

/-- Number of stored records for a (user, block key) pair. -/
def countKey (s : Store) (u : String) (k : BlockKey) : Nat :=
  (s.filter fun r => decide (r.user = u ∧ r.block_key = k)).length

/-- Result of a repository upsert: the new store, the affected record, the
created flag, and the read and write counts of the operation. -/
structure UpsertResult where
  store : Store
  record : BlockCompletion
  created : Bool
  reads : Nat
  writes : Nat

/-- Modelled from the spec: `CompletionRepository.upsert` (§4.3): create when
no record exists for (user, block key); no write when the stored completion
already equals the given value (one read, zero writes); otherwise update in
place refreshing the timestamp. -/
def upsert (u ck bt : String) (bk : BlockKey) (q : ℚ) (now : Nat)
    (s : Store) : UpsertResult :=
  match find s u bk with
  | none =>
      let r : BlockCompletion :=
        { user := u, course_key := ck, block_type := bt, block_key := bk
          completion := q, modified := now }
      { store := s ++ [r], record := r, created := true, reads := 1, writes := 1 }
  | some r =>
      if r.completion = q then
        { store := s, record := r, created := false, reads := 1, writes := 0 }
      else
        let r2 := { r with completion := q, modified := now }
        { store := replaceRec s u bk r2, record := r2, created := false
          reads := 1, writes := 1 }

/-- Outcome of a single submission: the (possibly unchanged) store, the
result or error, and the read and write counts. -/
structure SubmitOutcome where
  store : Store
  result : Except Err (BlockCompletion × Bool)
  reads : Nat
  writes : Nat

/-- Modelled from the spec: `CompletionService.submit_completion` (§4.4):
feature gate first (`ConfigurationError` when disabled), then validation
(`ValidationError`, no partial write), then delegation to the repository
upsert with the block type derived from the block key.
(`BlockCompletion.objects.submit_completion` in completion/models.py,
absent from `src/`.) -/
def submit_completion (enabled : Bool) (u ck : String) (bk : BlockKey)
    (v : Value) (now : Nat) (s : Store) : SubmitOutcome :=
  if enabled = false then
    { store := s, result := .error .configurationError, reads := 0, writes := 0 }
  else
    match v with
    | .num q =>
        if 0 ≤ q ∧ q ≤ 1 then
          let r := upsert u ck bk.blockType bk q now s
          { store := r.store, result := .ok (r.record, r.created)
            reads := r.reads, writes := r.writes }
        else
          { store := s, result := .error .validationError, reads := 0, writes := 0 }
    | _ =>
        { store := s, result := .error .validationError, reads := 0, writes := 0 }

/-- Boolean form of the validator, used by the batch path to check every
item before any write (§4.4 step 3). -/
def validB (v : Value) : Bool :=
  match validate_percent v with
  | .ok _ => true
  | .error _ => false

/-- The rational carried by a numeric value (only consulted on values the
validator accepted, which are always numeric). -/
def ratOf : Value → ℚ
  | .num q => q
  | _ => 0

/-- Apply the repository upsert for every item of a batch, in order, inside
the single transaction scope of §4.4 step 4. -/
def applyUpserts (u ck : String) (now : Nat) :
    List (BlockKey × Value) → Store → Store
  | [], s => s
  | it :: rest, s =>
      applyUpserts u ck now rest
        (upsert u ck it.1.blockType it.1 (ratOf it.2) now s).store

/-- Outcome of a batch submission: the resulting store and the result or
error.  On any error the store is the input store (all-or-nothing, §4.4). -/
structure BatchOutcome where
  store : Store
  result : Except Err Unit

/-- Modelled from the spec: `CompletionService.submit_batch_completion`
(§4.4): feature gate first, then the enrollment precondition (whole-batch
rejection, §9's recommended reading), then validation of every item before
any write (all-or-nothing), then one upsert per item in a single
transaction.  (`BlockCompletion.objects.submit_batch_completion` in
completion/models.py, absent from `src/`.) -/
def submit_batch_completion (enabled enrolled : Bool) (u ck : String)
    (items : List (BlockKey × Value)) (now : Nat) (s : Store) : BatchOutcome :=
  if enabled = false then
    { store := s, result := .error .configurationError }
  else if enrolled = false then
    { store := s, result := .error .enrollmentError }
  else if items.all (fun it => validB it.2) then
    { store := applyUpserts u ck now items s, result := .ok () }
  else
    { store := s, result := .error .validationError }

/-- Modelled from the spec: the race of two callers both observing no record
for the same (user, block key) pair before either writes (§4.3, §5, §9):
each write is an insert that, on uniqueness conflict, falls back to
read-then-update; the two writes are serialized by the storage layer,
first the caller with value `q1`, then the caller with value `q2`. -/
def raceSubmit (u ck : String) (bk : BlockKey) (q1 q2 : ℚ) (t1 t2 : Nat)
    (s0 : Store) : Store × Bool × Bool :=
  let a := upsert u ck bk.blockType bk q1 t1 s0
  let b := upsert u ck bk.blockType bk q2 t2 a.store
  (b.store, a.created, b.created)

/- The embedding of completion/fields.py, the one source file besides the
tests: `BigAutoField`. -/

/-- Does `n` start the character list `h`?  (helper for the substring test) -/
def strStarts : List Char → List Char → Bool
  | [], _ => true
  | _ :: _, [] => false
  | a :: as, b :: bs => a == b && strStarts as bs

/-- Does the character list `n` occur inside `h`? -/
def occursL (n : List Char) : List Char → Bool
  | [] => n.isEmpty
  | c :: rest => strStarts n (c :: rest) || occursL n rest

/-- Python's substring containment `n in h` on strings. -/
def strOccurs (n h : String) : Bool := occursL n.data h.data

namespace BigAutoField

/-- `BigAutoField.db_type` from completion/fields.py: dispatch on the
connection class's module name (`type(connection).__module__`, passed here
as `connModule`); the parent `AutoField.db_type(connection)` result is an
external collaborator, passed as `parentDbType`. -/
def db_type (parentDbType : String) (connModule : String) : String :=
  if strOccurs "mysql" connModule then "bigint AUTO_INCREMENT"
  else if strOccurs "postgres" connModule then "bigserial"
  else parentDbType

/-- `BigAutoField.rel_db_type` from completion/fields.py: always `bigint`. -/
def rel_db_type (_connModule : String) : String := "bigint"

end BigAutoField

/-! ### Helper lemmas about the store primitives -/

theorem find_append (s t : Store) (u : String) (k : BlockKey) :
    find (s ++ t) u k = (find s u k).or (find t u k) := by
  induction s with
  | nil => rfl
  | cons r rest ih =>
      by_cases h : r.user = u ∧ r.block_key = k
      · simp [find, h]
      · simp [find, h, ih]

theorem find_eq_none_countKey (s : Store) (u : String) (k : BlockKey)
    (h : find s u k = none) : countKey s u k = 0 := by
  induction s with
  | nil => rfl
  | cons r rest ih =>
      by_cases hr : r.user = u ∧ r.block_key = k
      · simp [find, hr] at h
      · simp [find, hr] at h
        simpa [countKey, hr] using ih h

theorem countKey_append (s t : Store) (u : String) (k : BlockKey) :
    countKey (s ++ t) u k = countKey s u k + countKey t u k := by
  simp [countKey, List.filter_append]

theorem replaceRec_length (s : Store) (u : String) (k : BlockKey)
    (r2 : BlockCompletion) : (replaceRec s u k r2).length = s.length := by
  induction s with
  | nil => rfl
  | cons r rest ih =>
      by_cases h : r.user = u ∧ r.block_key = k
      · simp [replaceRec, h, ih]
      · simp [replaceRec, h, ih]

theorem find_replaceRec_self (s : Store) (u : String) (k : BlockKey)
    (r r2 : BlockCompletion) (hf : find s u k = some r)
    (hu : r2.user = u) (hk : r2.block_key = k) :
    find (replaceRec s u k r2) u k = some r2 := by
  induction s with
  | nil => simp [find] at hf
  | cons a rest ih =>
      by_cases h : a.user = u ∧ a.block_key = k
      · simp [replaceRec, h, find, hu, hk]
      · simp [find, h] at hf
        simp [replaceRec, h, find, ih hf]

theorem countKey_replaceRec (s : Store) (u : String) (k : BlockKey)
    (r2 : BlockCompletion) (hu : r2.user = u) (hk : r2.block_key = k) :
    countKey (replaceRec s u k r2) u k = countKey s u k := by
  induction s with
  | nil => rfl
  | cons a rest ih =>
      by_cases h : a.user = u ∧ a.block_key = k
      · simp [replaceRec, h, countKey, hu, hk] at ih ⊢
        omega
      · simp [replaceRec, h, countKey] at ih ⊢
        simpa [h] using ih

/-! ### C1: the validator -/

/-- C1: `validate_percent` succeeds exactly on numeric, finite values in
[0.0, 1.0], and on every other input — not numeric, below 0.0, above 1.0,
NaN, positive or negative infinity — it fails with `ValidationError`. -/
theorem validate_percent_iff (v : Value) :
    (validate_percent v = .ok () ↔ ∃ q, v = .num q ∧ 0 ≤ q ∧ q ≤ 1) ∧
    (validate_percent v = .error .validationError ↔
      ¬ ∃ q, v = .num q ∧ 0 ≤ q ∧ q ≤ 1) := by
  cases v with
  | num q =>
      by_cases h : 0 ≤ q ∧ q ≤ 1 <;>
        simp [validate_percent, h]
  | nan => simp [validate_percent]
  | posInf => simp [validate_percent]
  | negInf => simp [validate_percent]
  | nonNumeric => simp [validate_percent]

/-- Witness for C1: the validator accepts 1 and rejects 2. -/
theorem validate_percent_iff_witness :
    validate_percent (Value.num 1) = .ok () ∧
    validate_percent (Value.num 2) = .error .validationError := by
  refine ⟨(validate_percent_iff (Value.num 1)).1.mpr ⟨1, rfl, zero_le_one, le_refl 1⟩,
    (validate_percent_iff (Value.num 2)).2.mpr ?_⟩
  rintro ⟨q, hq, h0, h1⟩
  cases hq
  norm_num at h1

/-! ### C2: feature gate disabled -/

/-- C2: with the feature gate disabled, both `submit_completion` and
`submit_batch_completion` fail with `ConfigurationError` and leave the
store — hence the stored record count — exactly as it was. -/
theorem gate_disabled_rejects (u ck : String) (bk : BlockKey) (v : Value)
    (now : Nat) (s : Store) (enrolled : Bool)
    (items : List (BlockKey × Value)) :
    (submit_completion false u ck bk v now s).result
        = .error .configurationError ∧
    (submit_completion false u ck bk v now s).store = s ∧
    (submit_batch_completion false enrolled u ck items now s).result
        = .error .configurationError ∧
    (submit_batch_completion false enrolled u ck items now s).store = s := by
  refine ⟨rfl, rfl, ?_, ?_⟩ <;> simp [submit_batch_completion]

/-! ### C10: BigAutoField -/

/-- C10: `BigAutoField.db_type` yields `bigint AUTO_INCREMENT` whenever
`mysql` occurs in the connection class's module name, `bigserial` when
`mysql` does not occur but `postgres` does, and otherwise the parent
`AutoField.db_type` result; `BigAutoField.rel_db_type` yields `bigint`
for every connection. -/
theorem bigAutoField_db_types (parentDbType connModule : String) :
    (strOccurs "mysql" connModule = true →
      BigAutoField.db_type parentDbType connModule = "bigint AUTO_INCREMENT") ∧
    (strOccurs "mysql" connModule = false → strOccurs "postgres" connModule = true →
      BigAutoField.db_type parentDbType connModule = "bigserial") ∧
    (strOccurs "mysql" connModule = false → strOccurs "postgres" connModule = false →
      BigAutoField.db_type parentDbType connModule = parentDbType) ∧
    BigAutoField.rel_db_type connModule = "bigint" := by
  refine ⟨?_, ?_, ?_, rfl⟩
  · intro h
    simp [BigAutoField.db_type, h]
  · intro h1 h2
    simp [BigAutoField.db_type, h1, h2]
  · intro h1 h2
    simp [BigAutoField.db_type, h1, h2]

/-- Witness for C10 at concrete module names: the MySQL backend module gets
`bigint AUTO_INCREMENT`, the PostgreSQL one gets `bigserial`, SQLite falls
back to the parent type, and `rel_db_type` is `bigint`. -/
theorem bigAutoField_db_types_witness :
    BigAutoField.db_type "integer" "django.db.backends.mysql.base"
      = "bigint AUTO_INCREMENT" ∧
    BigAutoField.db_type "integer" "django.db.backends.postgresql.base"
      = "bigserial" ∧
    BigAutoField.db_type "integer" "django.db.backends.sqlite3.base"
      = "integer" ∧
    BigAutoField.rel_db_type "django.db.backends.sqlite3.base" = "bigint" :=
  ⟨(bigAutoField_db_types "integer" "django.db.backends.mysql.base").1 (by decide),
   (bigAutoField_db_types "integer" "django.db.backends.postgresql.base").2.1
     (by decide) (by decide),
   (bigAutoField_db_types "integer" "django.db.backends.sqlite3.base").2.2.1
     (by decide) (by decide),
   (bigAutoField_db_types "integer" "django.db.backends.sqlite3.base").2.2.2⟩

/-- A record returned by `find` matches the looked-up (user, block key). -/
theorem find_some_matches (s : Store) (u : String) (k : BlockKey)
    (r : BlockCompletion) (h : find s u k = some r) :
    r.user = u ∧ r.block_key = k := by
  induction s with
  | nil => simp [find] at h
  | cons a rest ih =>
      by_cases ha : a.user = u ∧ a.block_key = k
      · simp [find, ha] at h
        subst h
        exact ha
      · simp [find, ha] at h
        exact ih h

/-- Concrete data for the closed witnesses below. -/
def bk0 : BlockKey := { course := "course-v1", blockType := "video", name := "doggos" }

/-- A stored record for `bk0` with completion 0, used by the witnesses. -/
def rec0 : BlockCompletion :=
  { user := "user1", course_key := "course-v1", block_type := "video"
    block_key := bk0, completion := 0, modified := 3 }

/-! ### C3: resubmitting an unchanged value -/

/-- C3: submitting the stored completion value again for an existing
(user, block key) record performs exactly one read and zero writes, returns
`created = false` with the stored record, and leaves the store unchanged. -/
theorem submit_unchanged_noop (u ck : String) (bk : BlockKey) (q : ℚ)
    (now : Nat) (s : Store) (r : BlockCompletion)
    (hf : find s u bk = some r) (hq : r.completion = q)
    (h0 : 0 ≤ q) (h1 : q ≤ 1) :
    (submit_completion true u ck bk (.num q) now s).reads = 1 ∧
    (submit_completion true u ck bk (.num q) now s).writes = 0 ∧
    (submit_completion true u ck bk (.num q) now s).result = .ok (r, false) ∧
    (submit_completion true u ck bk (.num q) now s).store = s := by
  simp [submit_completion, h0, h1, upsert, hf, hq]

/-- Witness for C3: resubmitting completion 0 for the stored `rec0`. -/
theorem submit_unchanged_noop_witness :
    (submit_completion true "user1" "course-v1" bk0 (.num 0) 7 [rec0]).reads = 1 ∧
    (submit_completion true "user1" "course-v1" bk0 (.num 0) 7 [rec0]).writes = 0 ∧
    (submit_completion true "user1" "course-v1" bk0 (.num 0) 7 [rec0]).result
      = .ok (rec0, false) ∧
    (submit_completion true "user1" "course-v1" bk0 (.num 0) 7 [rec0]).store
      = [rec0] :=
  submit_unchanged_noop "user1" "course-v1" bk0 0 7 [rec0] rec0
    (by decide) rfl (le_refl 0) zero_le_one

/-! ### C4: invalid value touches nothing -/

/-- C4: with a pre-existing record, submitting an invalid completion value
fails with `ValidationError`, leaves the store exactly as it was (so the
pre-existing record and the total record count are unchanged). -/
theorem submit_invalid_no_write (u ck : String) (bk : BlockKey) (v : Value)
    (now : Nat) (s : Store) (r0 : BlockCompletion)
    (hv : validate_percent v = .error .validationError)
    (hf : find s u bk = some r0) :
    (submit_completion true u ck bk v now s).result = .error .validationError ∧
    (submit_completion true u ck bk v now s).store = s ∧
    find (submit_completion true u ck bk v now s).store u bk = some r0 ∧
    (submit_completion true u ck bk v now s).store.length = s.length := by
  have hstore : (submit_completion true u ck bk v now s).store = s ∧
      (submit_completion true u ck bk v now s).result = .error .validationError := by
    cases v with
    | num q =>
        have h : ¬(0 ≤ q ∧ q ≤ 1) := by
          intro hq
          simp [validate_percent, hq] at hv
        simp [submit_completion, h]
    | nan => simp [submit_completion]
    | posInf => simp [submit_completion]
    | negInf => simp [submit_completion]
    | nonNumeric => simp [submit_completion]
  refine ⟨hstore.2, hstore.1, ?_, ?_⟩ <;> rw [hstore.1]
  exact hf

/-- Witness for C4: submitting the out-of-range value 2 over the stored
`rec0` fails and leaves the store as it was. -/
theorem submit_invalid_no_write_witness :
    (submit_completion true "user1" "course-v1" bk0 (.num 2) 7 [rec0]).result
      = .error .validationError ∧
    (submit_completion true "user1" "course-v1" bk0 (.num 2) 7 [rec0]).store
      = [rec0] ∧
    find (submit_completion true "user1" "course-v1" bk0 (.num 2) 7 [rec0]).store
      "user1" bk0 = some rec0 ∧
    (submit_completion true "user1" "course-v1" bk0 (.num 2) 7 [rec0]).store.length
      = [rec0].length :=
  submit_invalid_no_write "user1" "course-v1" bk0 (.num 2) 7 [rec0] rec0
    (by rfl) (by decide)

/-! ### C5: first submission creates -/

/-- C5: with no existing record for the (user, block key) pair, a valid
submission performs exactly one read and one create write, returns
`created = true` with the new record, appends it to the store, and
increases the record count by exactly one. -/
theorem submit_new_creates (u ck : String) (bk : BlockKey) (q : ℚ)
    (now : Nat) (s : Store)
    (hf : find s u bk = none) (h0 : 0 ≤ q) (h1 : q ≤ 1) :
    (submit_completion true u ck bk (.num q) now s).result =
      .ok ({ user := u, course_key := ck, block_type := bk.blockType,
             block_key := bk, completion := q, modified := now }, true) ∧
    (submit_completion true u ck bk (.num q) now s).reads = 1 ∧
    (submit_completion true u ck bk (.num q) now s).writes = 1 ∧
    (submit_completion true u ck bk (.num q) now s).store =
      s ++ [{ user := u, course_key := ck, block_type := bk.blockType,
              block_key := bk, completion := q, modified := now }] ∧
    (submit_completion true u ck bk (.num q) now s).store.length
      = s.length + 1 := by
  simp [submit_completion, h0, h1, upsert, hf]

/-- Witness for C5: first submission of completion 1 into the empty store. -/
theorem submit_new_creates_witness :
    (submit_completion true "user1" "course-v1" bk0 (.num 1) 7 ([] : Store)).result =
      .ok ({ user := "user1", course_key := "course-v1",
             block_type := bk0.blockType, block_key := bk0,
             completion := 1, modified := 7 }, true) ∧
    (submit_completion true "user1" "course-v1" bk0 (.num 1) 7 ([] : Store)).reads = 1 ∧
    (submit_completion true "user1" "course-v1" bk0 (.num 1) 7 ([] : Store)).writes = 1 ∧
    (submit_completion true "user1" "course-v1" bk0 (.num 1) 7 ([] : Store)).store =
      ([] : Store) ++
        [{ user := "user1", course_key := "course-v1",
           block_type := bk0.blockType, block_key := bk0,
           completion := 1, modified := 7 }] ∧
    (submit_completion true "user1" "course-v1" bk0 (.num 1) 7 ([] : Store)).store.length
      = ([] : Store).length + 1 :=
  submit_new_creates "user1" "course-v1" bk0 1 7 ([] : Store) rfl zero_le_one (le_refl 1)

/-! ### C6: changed value updates in place -/

/-- C6: with an existing record whose completion differs from the submitted
value, submission performs exactly one read and one update write, returns
`created = false` with the record updated in place (completion set,
timestamp refreshed), and leaves the total record count unchanged. -/
theorem submit_changed_updates (u ck : String) (bk : BlockKey) (q : ℚ)
    (now : Nat) (s : Store) (r : BlockCompletion)
    (hf : find s u bk = some r) (hne : r.completion ≠ q)
    (h0 : 0 ≤ q) (h1 : q ≤ 1) :
    (submit_completion true u ck bk (.num q) now s).result =
      .ok ({ r with completion := q, modified := now }, false) ∧
    (submit_completion true u ck bk (.num q) now s).reads = 1 ∧
    (submit_completion true u ck bk (.num q) now s).writes = 1 ∧
    find (submit_completion true u ck bk (.num q) now s).store u bk =
      some { r with completion := q, modified := now } ∧
    (submit_completion true u ck bk (.num q) now s).store.length
      = s.length := by
  obtain ⟨hu, hk⟩ := find_some_matches s u bk r hf
  have hstore : (submit_completion true u ck bk (.num q) now s).store =
      replaceRec s u bk { r with completion := q, modified := now } := by
    simp [submit_completion, h0, h1, upsert, hf, hne]
  refine ⟨?_, ?_, ?_, ?_, ?_⟩
  · simp [submit_completion, h0, h1, upsert, hf, hne]
  · simp [submit_completion, h0, h1, upsert, hf, hne]
  · simp [submit_completion, h0, h1, upsert, hf, hne]
  · rw [hstore]
    exact find_replaceRec_self s u bk r _ hf hu hk
  · rw [hstore]
    exact replaceRec_length s u bk _

/-- Witness for C6: changing the stored completion of `rec0` from 0 to 1. -/
theorem submit_changed_updates_witness :
    (submit_completion true "user1" "course-v1" bk0 (.num 1) 7 [rec0]).result =
      .ok ({ rec0 with completion := 1, modified := 7 }, false) ∧
    (submit_completion true "user1" "course-v1" bk0 (.num 1) 7 [rec0]).reads = 1 ∧
    (submit_completion true "user1" "course-v1" bk0 (.num 1) 7 [rec0]).writes = 1 ∧
    find (submit_completion true "user1" "course-v1" bk0 (.num 1) 7 [rec0]).store
      "user1" bk0 = some { rec0 with completion := 1, modified := 7 } ∧
    (submit_completion true "user1" "course-v1" bk0 (.num 1) 7 [rec0]).store.length
      = [rec0].length :=
  submit_changed_updates "user1" "course-v1" bk0 1 7 [rec0] rec0
    (by decide) (by decide) zero_le_one (le_refl 1)

/-! ### Further store lemmas for the batch and race claims -/

theorem upsert_fresh_store (u ck bt : String) (bk : BlockKey) (q : ℚ)
    (now : Nat) (s : Store) (hf : find s u bk = none) :
    (upsert u ck bt bk q now s).store =
      s ++ [{ user := u, course_key := ck, block_type := bt, block_key := bk
              completion := q, modified := now }] := by
  simp [upsert, hf]

theorem find_append_of_some (s t : Store) (u : String) (k : BlockKey)
    (r0 : BlockCompletion) (hf : find s u k = some r0) :
    find (s ++ t) u k = some r0 := by
  rw [find_append, hf]
  rfl

theorem find_append_single_self (s : Store) (u : String) (k : BlockKey)
    (r : BlockCompletion) (hf : find s u k = none)
    (hu : r.user = u) (hk : r.block_key = k) :
    find (s ++ [r]) u k = some r := by
  rw [find_append, hf]
  simp [find, hu, hk]

theorem find_append_single_ne (s : Store) (u : String) (k2 : BlockKey)
    (r : BlockCompletion) (hk : r.block_key ≠ k2) :
    find (s ++ [r]) u k2 = find s u k2 := by
  rw [find_append]
  have hnone : find [r] u k2 = none := by
    simp only [find]
    rw [if_neg (fun h => hk h.2)]
  rw [hnone]
  cases find s u k2 <;> rfl

/-! ### C7: an invalid item rejects the whole batch -/

/-- C7: if any item of a batch fails validation, `submit_batch_completion`
fails with `ValidationError` and the store is exactly the input store: no
record of the batch is created or modified (all-or-nothing). -/
theorem batch_invalid_atomic (u ck : String) (items : List (BlockKey × Value))
    (now : Nat) (s : Store) (it0 : BlockKey × Value)
    (hmem : it0 ∈ items) (hv : validB it0.2 = false) :
    (submit_batch_completion true true u ck items now s).result
      = .error .validationError ∧
    (submit_batch_completion true true u ck items now s).store = s := by
  have hall : (items.all fun it => validB it.2) = false := by
    rw [List.all_eq_false]
    exact ⟨it0, hmem, by simp [hv]⟩
  constructor <;> simp [submit_batch_completion, hall]

/-- Witness for C7: a two-item batch whose second item carries the invalid
value 2, run over the store holding `rec0`, changes nothing. -/
theorem batch_invalid_atomic_witness :
    (submit_batch_completion true true "user1" "course-v1"
        [(bk0, .num 0), (bk0, .num 2)] 7 [rec0]).result
      = .error .validationError ∧
    (submit_batch_completion true true "user1" "course-v1"
        [(bk0, .num 0), (bk0, .num 2)] 7 [rec0]).store = [rec0] :=
  batch_invalid_atomic "user1" "course-v1" [(bk0, .num 0), (bk0, .num 2)]
    7 [rec0] (bk0, .num 2) (by simp) (by rfl)

/-- Applying a batch of upserts whose keys are all absent from the store and
mutually distinct creates exactly one record per item, preserves every
record already stored, and leaves each item findable with its submitted
value and timestamp. -/
theorem applyUpserts_fresh (u ck : String) (now : Nat)
    (items : List (BlockKey × Value)) :
    ∀ (s : Store),
      (∀ it ∈ items, find s u it.1 = none) →
      ((items.map Prod.fst).Nodup) →
      (applyUpserts u ck now items s).length = s.length + items.length ∧
      (∀ k r0, find s u k = some r0 →
        find (applyUpserts u ck now items s) u k = some r0) ∧
      (∀ it ∈ items, find (applyUpserts u ck now items s) u it.1 =
        some { user := u, course_key := ck, block_type := it.1.blockType,
               block_key := it.1, completion := ratOf it.2, modified := now }) := by
  induction items with
  | nil =>
      intro s _ _
      exact ⟨rfl, fun k r0 h => h, fun it hit => absurd hit (List.not_mem_nil it)⟩
  | cons a rest ih =>
      intro s hfresh hnodup
      simp only [List.map_cons, List.nodup_cons] at hnodup
      have hfa : find s u a.1 = none := hfresh a (List.mem_cons_self a rest)
      have hstore : (upsert u ck a.1.blockType a.1 (ratOf a.2) now s).store =
          s ++ [{ user := u, course_key := ck, block_type := a.1.blockType,
                  block_key := a.1, completion := ratOf a.2, modified := now }] :=
        upsert_fresh_store u ck a.1.blockType a.1 (ratOf a.2) now s hfa
      have hstep : applyUpserts u ck now (a :: rest) s =
          applyUpserts u ck now rest
            (s ++ [{ user := u, course_key := ck, block_type := a.1.blockType,
                     block_key := a.1, completion := ratOf a.2, modified := now }]) := by
        simp only [applyUpserts]
        rw [hstore]
      have hfreshrest : ∀ it ∈ rest,
          find (s ++ [{ user := u, course_key := ck, block_type := a.1.blockType,
                        block_key := a.1, completion := ratOf a.2, modified := now }])
            u it.1 = none := by
        intro it hit
        have hne : a.1 ≠ it.1 := by
          intro he
          have hm : it.1 ∈ rest.map Prod.fst := List.mem_map_of_mem Prod.fst hit
          rw [← he] at hm
          exact hnodup.1 hm
        rw [find_append_single_ne _ u it.1 _ hne]
        exact hfresh it (List.mem_cons_of_mem a hit)
      obtain ⟨ihlen, ihpres, ihitems⟩ := ih _ hfreshrest hnodup.2
      refine ⟨?_, ?_, ?_⟩
      · rw [hstep, ihlen, List.length_append]
        simp only [List.length_cons, List.length_nil]
        omega
      · intro k r0 hkr
        rw [hstep]
        exact ihpres k r0 (find_append_of_some s _ u k r0 hkr)
      · intro it hit
        rcases List.mem_cons.mp hit with he | hmem
        · subst he
          rw [hstep]
          refine ihpres _ _ ?_
          exact find_append_single_self s u it.1 _ hfa rfl rfl
        · rw [hstep]
          exact ihitems it hmem

/-- Re-applying a batch whose every item already matches its stored
completion value leaves the store exactly unchanged. -/
theorem applyUpserts_idem (u ck : String) (now : Nat)
    (items : List (BlockKey × Value)) :
    ∀ (s : Store),
      (∀ it ∈ items, ∃ r, find s u it.1 = some r ∧ r.completion = ratOf it.2) →
      applyUpserts u ck now items s = s := by
  induction items with
  | nil => intro s _; rfl
  | cons a rest ih =>
      intro s h
      obtain ⟨r, hf, hc⟩ := h a (List.mem_cons_self a rest)
      have hup : (upsert u ck a.1.blockType a.1 (ratOf a.2) now s).store = s := by
        simp [upsert, hf, hc]
      simp only [applyUpserts]
      rw [hup]
      exact ih s (fun it hit => h it (List.mem_cons_of_mem a hit))

/-! ### C8: a valid batch upserts all items and is idempotent -/

/-- C8: a batch of N valid items over distinct block keys, submitted by an
enrolled user with the gate on, succeeds; starting from the empty store it
leaves exactly N records, each item findable with its submitted value; and
re-running the identical batch succeeds and leaves the stored state
exactly unchanged (idempotence). -/
theorem batch_success_idempotent (u ck : String)
    (items : List (BlockKey × Value)) (now now2 : Nat)
    (hval : (items.all fun it => validB it.2) = true)
    (hnodup : ((items.map Prod.fst).Nodup)) :
    (submit_batch_completion true true u ck items now ([] : Store)).result
      = .ok () ∧
    (submit_batch_completion true true u ck items now ([] : Store)).store.length
      = items.length ∧
    (∀ it ∈ items,
      find (submit_batch_completion true true u ck items now ([] : Store)).store
          u it.1
        = some { user := u, course_key := ck, block_type := it.1.blockType,
                 block_key := it.1, completion := ratOf it.2, modified := now }) ∧
    (submit_batch_completion true true u ck items now2
        (submit_batch_completion true true u ck items now ([] : Store)).store).result
      = .ok () ∧
    (submit_batch_completion true true u ck items now2
        (submit_batch_completion true true u ck items now ([] : Store)).store).store
      = (submit_batch_completion true true u ck items now ([] : Store)).store := by
  have hb : ∀ (t : Nat) (s : Store), submit_batch_completion true true u ck items t s
      = ⟨applyUpserts u ck t items s, .ok ()⟩ := by
    intro t s
    simp [submit_batch_completion, hval]
  obtain ⟨hlen, -, hitems⟩ :=
    applyUpserts_fresh u ck now items ([] : Store) (fun it _ => rfl) hnodup
  have hidem : applyUpserts u ck now2 items (applyUpserts u ck now items []) =
      applyUpserts u ck now items [] :=
    applyUpserts_idem u ck now2 items _ (fun it hit => ⟨_, hitems it hit, rfl⟩)
  refine ⟨?_, ?_, ?_, ?_, ?_⟩
  · rw [hb]
  · rw [hb]
    simpa using hlen
  · intro it hit
    rw [hb]
    exact hitems it hit
  · rw [hb, hb]
  · rw [hb, hb]
    exact hidem

/-- A second concrete block key for the batch witness. -/
def bk1 : BlockKey := { course := "course-v1", blockType := "video", name := "puppers" }

/-- A concrete two-item batch over distinct block keys. -/
def items0 : List (BlockKey × Value) := [(bk0, .num 0), (bk1, .num 1)]

/-- Witness for C8: the two-item batch `items0` succeeds from the empty
store, stores both records with their submitted values, and re-running it
changes nothing. -/
theorem batch_success_idempotent_witness :
    (submit_batch_completion true true "user1" "course-v1" items0 7 ([] : Store)).result
      = .ok () ∧
    (submit_batch_completion true true "user1" "course-v1" items0 7 ([] : Store)).store.length
      = items0.length ∧
    find (submit_batch_completion true true "user1" "course-v1" items0 7 ([] : Store)).store
        "user1" bk0
      = some { user := "user1", course_key := "course-v1", block_type := bk0.blockType,
               block_key := bk0, completion := 0, modified := 7 } ∧
    find (submit_batch_completion true true "user1" "course-v1" items0 7 ([] : Store)).store
        "user1" bk1
      = some { user := "user1", course_key := "course-v1", block_type := bk1.blockType,
               block_key := bk1, completion := 1, modified := 7 } ∧
    (submit_batch_completion true true "user1" "course-v1" items0 9
        (submit_batch_completion true true "user1" "course-v1" items0 7 ([] : Store)).store).result
      = .ok () ∧
    (submit_batch_completion true true "user1" "course-v1" items0 9
        (submit_batch_completion true true "user1" "course-v1" items0 7 ([] : Store)).store).store
      = (submit_batch_completion true true "user1" "course-v1" items0 7 ([] : Store)).store := by
  obtain ⟨h1, h2, h3, h4, h5⟩ :=
    batch_success_idempotent "user1" "course-v1" items0 7 9 (by rfl) (by decide)
  exact ⟨h1, h2, h3 (bk0, .num 0) (by simp [items0]),
    h3 (bk1, .num 1) (by simp [items0]), h4, h5⟩

/-! ### C9: concurrent first-time creators of the same pair -/

/-- An upsert that finds a record already holding the submitted value is a
read-only no-op. -/
theorem upsert_found_eq (u ck bt : String) (bk : BlockKey) (q : ℚ)
    (now : Nat) (s : Store) (r : BlockCompletion)
    (hf : find s u bk = some r) (hq : r.completion = q) :
    upsert u ck bt bk q now s =
      { store := s, record := r, created := false, reads := 1, writes := 0 } := by
  simp [upsert, hf, hq]

theorem upsert_found_ne (u ck bt : String) (bk : BlockKey) (q : ℚ)
    (now : Nat) (s : Store) (r : BlockCompletion)
    (hf : find s u bk = some r) (hq : r.completion ≠ q) :
    upsert u ck bt bk q now s =
      { store := replaceRec s u bk { r with completion := q, modified := now }
        record := { r with completion := q, modified := now }
        created := false, reads := 1, writes := 1 } := by
  simp [upsert, hf, hq]

/-- The record a fresh upsert writes, as one term (used to keep the race
proof statements compact). -/
def mkRec (u ck bt : String) (bk : BlockKey) (q : ℚ) (t : Nat) : BlockCompletion :=
  { user := u, course_key := ck, block_type := bt, block_key := bk
    completion := q, modified := t }

/-- C9: when two callers both observe no record for the same (user, block
key) pair and then write in sequence, exactly one record for the pair
exists afterward, it holds one of the two submitted values, and neither
caller sees an error: the first write reports a creation and the second is
absorbed into a non-creating (update or no-op) outcome. -/
theorem race_single_record (u ck : String) (bk : BlockKey) (q1 q2 : ℚ)
    (t1 t2 : Nat) (s0 : Store) (hf : find s0 u bk = none) :
    countKey (raceSubmit u ck bk q1 q2 t1 t2 s0).1 u bk = 1 ∧
    (∃ r, find (raceSubmit u ck bk q1 q2 t1 t2 s0).1 u bk = some r ∧
      (r.completion = q1 ∨ r.completion = q2)) ∧
    (raceSubmit u ck bk q1 q2 t1 t2 s0).2.1 = true ∧
    (raceSubmit u ck bk q1 q2 t1 t2 s0).2.2 = false := by
  have hcount0 : countKey s0 u bk = 0 := find_eq_none_countKey s0 u bk hf
  have ha : upsert u ck bk.blockType bk q1 t1 s0 =
      { store := s0 ++ [mkRec u ck bk.blockType bk q1 t1]
        record := mkRec u ck bk.blockType bk q1 t1
        created := true, reads := 1, writes := 1 } := by
    simp [upsert, hf, mkRec]
  have hfA : find (s0 ++ [mkRec u ck bk.blockType bk q1 t1]) u bk =
      some (mkRec u ck bk.blockType bk q1 t1) :=
    find_append_single_self s0 u bk _ hf rfl rfl
  have hcount1 : countKey (s0 ++ [mkRec u ck bk.blockType bk q1 t1]) u bk = 1 := by
    rw [countKey_append, hcount0]
    simp [countKey, mkRec]
  by_cases he : q1 = q2
  · have hres : raceSubmit u ck bk q1 q2 t1 t2 s0 =
        (s0 ++ [mkRec u ck bk.blockType bk q1 t1], true, false) := by
      show ((upsert u ck bk.blockType bk q2 t2
              (upsert u ck bk.blockType bk q1 t1 s0).store).store,
            (upsert u ck bk.blockType bk q1 t1 s0).created,
            (upsert u ck bk.blockType bk q2 t2
              (upsert u ck bk.blockType bk q1 t1 s0).store).created) = _
      rw [ha]
      rw [upsert_found_eq u ck bk.blockType bk q2 t2 _ _ hfA he]
    rw [hres]
    exact ⟨hcount1, ⟨_, hfA, Or.inl rfl⟩, rfl, rfl⟩
  · have hres : raceSubmit u ck bk q1 q2 t1 t2 s0 =
        (replaceRec (s0 ++ [mkRec u ck bk.blockType bk q1 t1]) u bk
          (mkRec u ck bk.blockType bk q2 t2), true, false) := by
      show ((upsert u ck bk.blockType bk q2 t2
              (upsert u ck bk.blockType bk q1 t1 s0).store).store,
            (upsert u ck bk.blockType bk q1 t1 s0).created,
            (upsert u ck bk.blockType bk q2 t2
              (upsert u ck bk.blockType bk q1 t1 s0).store).created) = _
      rw [ha]
      rw [upsert_found_ne u ck bk.blockType bk q2 t2 _ _ hfA he]
      rfl
    rw [hres]
    refine ⟨?_, ⟨mkRec u ck bk.blockType bk q2 t2, ?_, Or.inr rfl⟩, rfl, rfl⟩
    · rw [countKey_replaceRec _ u bk _ rfl rfl]
      exact hcount1
    · exact find_replaceRec_self _ u bk _ _ hfA rfl rfl

/-- Witness for C9: two racing first-time submissions of 0 and 1 for `bk0`
into the empty store leave exactly one record holding one of the values. -/
theorem race_single_record_witness :
    countKey (raceSubmit "user1" "course-v1" bk0 0 1 5 6 ([] : Store)).1
        "user1" bk0 = 1 ∧
    (∃ r, find (raceSubmit "user1" "course-v1" bk0 0 1 5 6 ([] : Store)).1
        "user1" bk0 = some r ∧ (r.completion = 0 ∨ r.completion = 1)) ∧
    (raceSubmit "user1" "course-v1" bk0 0 1 5 6 ([] : Store)).2.1 = true ∧
    (raceSubmit "user1" "course-v1" bk0 0 1 5 6 ([] : Store)).2.2 = false :=
  race_single_record "user1" "course-v1" bk0 0 1 5 6 ([] : Store) rfl
